import Mathlib

set_option maxRecDepth 40000

/-!
Verification development for the ClimateGuard memory and context-compaction
subsystem.  The definitions below are a shallow embedding of the Python code
in src/memory/compactor.py and src/memory/memory_service.py:

* Python strings are Lean Strings; string primitives (lower, strip, split,
  join, slicing) are modelled by structurally recursive functions over the
  char list, which agree with the Python operations on the ASCII texts the
  code handles;
* Python ints are Nat (every integer in the modelled code is non-negative);
* Python floats are exact rationals (no modelled claim exercises binary
  floating-point rounding);
* the three regular expressions of extract_key_facts are hand-translated
  recognizers with the exact leftmost / ordered-alternation / greedy
  semantics of Python re for those patterns;
* Python list(set(xs)) has unspecified order; it is modelled as List.dedup
  (keeps the last occurrence of each duplicate).  No theorem below depends
  on the order chosen, only on the underlying set of elements;
* datetime.now() and uuid-based id generation are modelled as an explicit
  time argument and a fresh counter threaded through the state.
-/

namespace CG

/-- One conversation turn: a dict with role and content (compactor.py treats
a dict event as a turn; a missing content key behaves as empty content). -/
structure Turn where
  role : String
  content : String
deriving Repr, DecidableEq

/-- CompactionConfig from compactor.py, with the source defaults.  The field
priority_keywords defaults to the list built in post_init. -/
structure CompactionConfig where
  max_tokens : Nat := 4000
  min_turns_to_keep : Nat := 3
  overlap_size : Nat := 1
  summary_max_length : Nat := 500
  priority_keywords : List String :=
    ["co2", "carbon", "emissions", "footprint", "kg", "tons",
     "vegetarian", "vegan", "meat", "beef", "chicken",
     "car", "drive", "bicycle", "transit", "flight",
     "electric", "solar", "renewable",
     "commit", "goal", "plan", "will", "promise",
     "meatless", "reduce", "switch", "change",
     "live", "city", "country", "home"]
deriving Repr, DecidableEq

/-- CompactionResult from compactor.py.  The source field compression_ratio
is named compressionRatioQ here (a rational standing for the Python float). -/
structure CompactionResult where
  original_tokens : Nat
  compacted_tokens : Nat
  compressionRatioQ : ℚ
  summary : String
  preserved_facts : List String
  kept_turns : Nat
  compacted_turns : Nat
deriving Repr, DecidableEq

/-- Is the needle a contiguous sublist starting at some position of hay? -/
def containsSub (needle : List Char) : List Char → Bool
  | [] => needle.isPrefixOf []
  | c :: rest => needle.isPrefixOf (c :: rest) || containsSub needle rest

/-- Python needle in hay (substring containment). -/
def containsStr (hay needle : String) : Bool :=
  containsSub needle.data hay.data

/-- str.lower for the ASCII texts modelled here (structural on the char
list, so that it reduces inside the kernel). -/
def lowerStr (s : String) : String :=
  String.mk (s.data.map Char.toLower)

/-- The character class matched by the regex \s (ASCII part). -/
def isSpaceChar (c : Char) : Bool :=
  c == ' ' || c == '\t' || c == '\n' || c == '\r' || c == Char.ofNat 11 || c == Char.ofNat 12

/-- The character class matched by the regex \w (ASCII part). -/
def isWordChar (c : Char) : Bool :=
  c.isAlphanum || c == '_'

/-- re.split on a single-character class (keeps empty pieces), structural
on the char list.  Matches Python re.split for the classes used here. -/
def splitChars (p : Char → Bool) : List Char → List String
  | [] => [""]
  | c :: cs =>
    if p c then "" :: splitChars p cs
    else match splitChars p cs with
      | [] => [String.mk [c]]
      | piece :: rest => String.mk (c :: piece.data) :: rest

/-- re.split on a single-character class over a string. -/
def splitOnPred (p : Char → Bool) (s : String) : List String :=
  splitChars p s.data

/-- Python str.strip(): remove leading and trailing whitespace. -/
def trimStr (s : String) : String :=
  String.mk (((s.data.dropWhile (fun c => isSpaceChar c)).reverse.dropWhile
    (fun c => isSpaceChar c)).reverse)

/-- Python slice s[:n] for a non-negative n. -/
def takeStr (s : String) (n : Nat) : String :=
  String.mk (s.data.take n)

/-- Python sep.join(pieces). -/
def joinWith (sep : String) : List String → String
  | [] => ""
  | [a] => a
  | a :: rest => a ++ sep ++ joinWith sep rest

/-- ASCII apostrophe, kept out of string literals. -/
def apostC : Char :=
  Char.ofNat 39

/-- The literal pattern alternative i-apostrophe-m. -/
def strIm : String :=
  String.mk ['i', apostC, 'm']

/-- The literal pattern alternative we-apostrophe-re. -/
def strWeRe : String :=
  String.mk ['w', 'e', apostC, 'r', 'e']

/-- estimate_tokens: length of the text integer-divided by 4. -/
def estimate_tokens (text : String) : Nat :=
  text.length / 4

/-- Consume one-or-more \s characters (greedy), returning the rest. -/
def spaces1 (l : List Char) : Option (List Char) :=
  let p := l.span isSpaceChar
  if p.1 = [] then none else some p.2

/-- Consume one-or-more \w characters (greedy), returning (word, rest). -/
def words1 (l : List Char) : Option (List Char × List Char) :=
  let p := l.span isWordChar
  if p.1 = [] then none else some (p.1, p.2)

/-- Ordered literal alternation: consume the first alternative that is a
prefix of the input, returning the rest.  Used only where no alternative is
a prefix of another viable one, so committed choice equals re semantics. -/
def tryAlts (l : List Char) : List String → Option (List Char)
  | [] => none
  | a :: rest => if a.data.isPrefixOf l then some (l.drop a.length) else tryAlts l rest

/-- Ordered literal alternation keeping the matched alternative. -/
def tryAltsKeep (l : List Char) : List String → Option String
  | [] => none
  | a :: rest => if a.data.isPrefixOf l then some a else tryAltsKeep l rest

/-- The mass-unit alternation kg|tons?|tonnes? of the CO2 regex, expanded in
the order re tries it, followed by \s* and the alternation
co2|carbon|emissions?.  Returns (consumed chars from the unit on, rest). -/
def co2UnitTail (r : List Char) : List String → Option (List Char × List Char)
  | [] => none
  | u :: us =>
    if u.data.isPrefixOf r then
      let r1 := r.drop u.length
      let sp := r1.span isSpaceChar
      match tryAltsKeep sp.2 ["co2", "carbon", "emissions", "emission"] with
      | some t => some (u.data ++ sp.1 ++ t.data, sp.2.drop t.length)
      | none => co2UnitTail r us
    else co2UnitTail r us

/-- Try the CO2 regex (\d+(?:\.\d+)?)\s*(?:kg|tons?|tonnes?)\s*(?:co2|carbon|emissions?)
anchored at the head of l; on success returns (matched chars, rest). -/
def co2MatchAt (l : List Char) : Option (List Char × List Char) :=
  let d := l.span Char.isDigit
  if d.1 = [] then none else
  let fr : List Char × List Char :=
    match d.2 with
    | '.' :: r =>
      let f := r.span Char.isDigit
      if f.1 = [] then ([], d.2) else ('.' :: f.1, f.2)
    | _ => ([], d.2)
  let sp := fr.2.span isSpaceChar
  match co2UnitTail sp.2 ["kg", "tons", "ton", "tonnes", "tonne"] with
  | some (m, rest) => some (d.1 ++ fr.1 ++ sp.1 ++ m, rest)
  | none => none

/-- re.finditer scan for the CO2 regex: leftmost matches, resuming after each
match.  Fuel bounds the recursion; every call site passes the input length,
which suffices because each step consumes at least one character. -/
def co2Scan : Nat → List Char → List String
  | 0, _ => []
  | _ + 1, [] => []
  | fuel + 1, c :: cs =>
    match co2MatchAt (c :: cs) with
    | some (m, rest) => String.mk m :: co2Scan fuel rest
    | none => co2Scan fuel cs

/-- All CO2-quantity facts of the lower-cased text, in match order. -/
def co2Facts (textLower : String) : List String :=
  (co2Scan textLower.data.length textLower.data).map
    (fun m => "Emissions data: " ++ m)

/-- Diet pattern (?:i am|i-apostrophe-m|we are|we-apostrophe-re)\s+(?:a\s+)?(vegetarian|vegan|omnivore|pescatarian)
anchored at the head of l; returns the captured group. -/
def dietAt (l : List Char) : Option String :=
  match tryAlts l ["i am", strIm, "we are", strWeRe] with
  | none => none
  | some r1 =>
    match spaces1 r1 with
    | none => none
    | some r2 =>
      let grp := fun r => tryAltsKeep r ["vegetarian", "vegan", "omnivore", "pescatarian"]
      let withA : Option String :=
        match r2 with
        | 'a' :: rr => (spaces1 rr).bind grp
        | _ => none
      match withA with
      | some g => some g
      | none => grp r2

/-- The group-and-tail suffix (\w+(?:\s+\w+)?)\s+(?:to work|daily|regularly)
of the transport pattern, with greedy two-word capture tried first. -/
def transportGroupTail (r : List Char) : Option String :=
  match words1 r with
  | none => none
  | some (w1, r1) =>
    let tailReq := fun rr => (spaces1 rr).bind (fun r2 => tryAlts r2 ["to work", "daily", "regularly"])
    let two : Option String :=
      let sp := r1.span isSpaceChar
      if sp.1 = [] then none else
      match words1 sp.2 with
      | none => none
      | some (w2, r3) => (tailReq r3).map (fun _ => String.mk (w1 ++ sp.1 ++ w2))
    match two with
    | some g => some g
    | none => (tailReq r1).map (fun _ => String.mk w1)

/-- Transport pattern (?:i|we)\s+(?:drive|use|take|ride)\s+(?:a\s+)?(\w+(?:\s+\w+)?)\s+(?:to work|daily|regularly)
anchored at the head of l; returns the captured group. -/
def transportAt (l : List Char) : Option String :=
  let cont := fun (r0 : List Char) =>
    (spaces1 r0).bind fun r1 =>
    (tryAlts r1 ["drive", "use", "take", "ride"]).bind fun r2 =>
    (spaces1 r2).bind fun r3 =>
      let withA : Option String :=
        match r3 with
        | 'a' :: rr => (spaces1 rr).bind transportGroupTail
        | _ => none
      match withA with
      | some g => some g
      | none => transportGroupTail r3
  match (if ['i'].isPrefixOf l then cont (l.drop 1) else none) with
  | some g => some g
  | none => if "we".data.isPrefixOf l then cont (l.drop 2) else none

/-- Location pattern suffix \s+in\s+(\w+(?:\s+\w+)?) after live/living. -/
def locAfter (r0 : List Char) : Option String :=
  (spaces1 r0).bind fun r1 =>
  if "in".data.isPrefixOf r1 then
    (spaces1 (r1.drop 2)).bind fun r3 =>
      match words1 r3 with
      | none => none
      | some (w1, r4) =>
        let sp := r4.span isSpaceChar
        if sp.1 = [] then some (String.mk w1) else
        match words1 sp.2 with
        | some (w2, _) => some (String.mk (w1 ++ sp.1 ++ w2))
        | none => some (String.mk w1)
  else none

/-- Location pattern (?:live|living)\s+in\s+(\w+(?:\s+\w+)?) anchored at the
head of l (live is tried before living, with backtracking as in re). -/
def locAt (l : List Char) : Option String :=
  match (if "live".data.isPrefixOf l then locAfter (l.drop 4) else none) with
  | some g => some g
  | none => if "living".data.isPrefixOf l then locAfter (l.drop 6) else none

/-- re.search: try the anchored matcher at each position, leftmost first,
including the empty suffix. -/
def searchAt {α : Type} (f : List Char → Option α) : List Char → Option α
  | [] => f []
  | c :: cs =>
    match f (c :: cs) with
    | some x => some x
    | none => searchAt f cs

/-- The fixed commitment words of extract_key_facts. -/
def commitmentWords : List String :=
  ["commit", "will", "plan to", "going to", "promise", "goal"]

/-- extract_key_facts from compactor.py: CO2-quantity facts, then commitment
sentences, then the three preference patterns (first match only), with
list(set(...)) deduplication at the end. -/
def extract_key_facts (cfg : CompactionConfig) (text : String) : List String :=
  let textLower := lowerStr text
  let co2s := co2Facts textLower
  let sentences := splitOnPred (fun c => c == '.' || c == '!' || c == '?') text
  let commits :=
    (sentences.filter (fun s =>
      let sl := lowerStr s
      commitmentWords.any (fun w => containsStr sl w) &&
        cfg.priority_keywords.any (fun kw => containsStr sl kw))).map
      (fun s => "Commitment: " ++ trimStr s)
  let prefs :=
    ((searchAt dietAt textLower.data).map (fun g => "Diet: " ++ g)).toList ++
    ((searchAt transportAt textLower.data).map (fun g => "Transport: " ++ g)).toList ++
    ((searchAt locAt textLower.data).map (fun g => "Location: " ++ g)).toList
  (co2s ++ commits ++ prefs).dedup

/-- The fixed topic keyword groups of summarize_turns, in dict order. -/
def topicKeywords : List (String × List String) :=
  [("diet", ["food", "eat", "meal", "meat", "vegetarian"]),
   ("transport", ["car", "drive", "commute", "flight", "train"]),
   ("energy", ["electricity", "energy", "power", "heating"]),
   ("footprint", ["footprint", "emissions", "carbon", "co2"])]

/-- Python slice s[:k] for an int k (negative k counts from the end). -/
def pySliceTo (s : String) (k : Int) : String :=
  if 0 ≤ k then takeStr s k.toNat
  else takeStr s ((s.length : Int) + k).toNat

/-- summarize_turns from compactor.py.  The topics set is modelled as a list
in first-encounter order (Python iterates a set in unspecified order; no
theorem below depends on a non-empty topics clause). -/
def summarize_turns (cfg : CompactionConfig) (turns : List Turn) : String :=
  if turns = [] then "" else
  let all_facts := turns.flatMap (fun t => extract_key_facts cfg t.content)
  let topics := turns.foldl (fun acc t =>
    let cl := lowerStr t.content
    topicKeywords.foldl (fun acc2 tk =>
      if tk.2.any (fun kw => containsStr cl kw) && !(acc2.contains tk.1)
      then acc2 ++ [tk.1] else acc2) acc) []
  let parts :=
    (if topics = [] then [] else
      ["[Previous discussion covered: " ++ joinWith ", " topics ++ "]"]) ++
    (if all_facts = [] then [] else
      ["[Key facts: " ++ joinWith "; " (all_facts.dedup.take 5) ++ "]"])
  let summary := String.intercalate " " parts
  if cfg.summary_max_length < summary.length then
    pySliceTo summary ((cfg.summary_max_length : Int) - 3) ++ "..."
  else summary

/-- The space-joined contents of a turn sequence (original_text in compact). -/
def fullText (turns : List Turn) : String :=
  joinWith " " (turns.map Turn.content)

/-- keep_count in the over-budget branch of compact. -/
def keepCountOf (cfg : CompactionConfig) (turns : List Turn) : Nat :=
  max cfg.min_turns_to_keep (turns.length / 3)

/-- Python turns[:-keep_count]: for keep_count = 0 the slice is empty. -/
def turnsToSummarize (cfg : CompactionConfig) (turns : List Turn) : List Turn :=
  if keepCountOf cfg turns = 0 then []
  else turns.take (turns.length - keepCountOf cfg turns)

/-- Python turns[-keep_count:]: for keep_count = 0 the slice is the whole
list. -/
def turnsToKeep (cfg : CompactionConfig) (turns : List Turn) : List Turn :=
  if keepCountOf cfg turns = 0 then turns
  else turns.drop (turns.length - keepCountOf cfg turns)

/-- compact from compactor.py, for dict-shaped events (the ADK-Event branch
of the event loop extracts the same role/content pairs). -/
def compact (cfg : CompactionConfig) (turns : List Turn) : CompactionResult :=
  if turns = [] then
    { original_tokens := 0, compacted_tokens := 0, compressionRatioQ := 1,
      summary := "", preserved_facts := [], kept_turns := 0, compacted_turns := 0 }
  else
    let original_text := fullText turns
    let original_tokens := estimate_tokens original_text
    if original_tokens ≤ cfg.max_tokens then
      { original_tokens := original_tokens, compacted_tokens := original_tokens,
        compressionRatioQ := 1, summary := "",
        preserved_facts := extract_key_facts cfg original_text,
        kept_turns := turns.length, compacted_turns := 0 }
    else
      let turns_to_summarize := turnsToSummarize cfg turns
      let turns_to_keep := turnsToKeep cfg turns
      let summary := summarize_turns cfg turns_to_summarize
      let all_facts := extract_key_facts cfg original_text
      let kept_text := fullText turns_to_keep
      let compacted_tokens := estimate_tokens (summary ++ " " ++ kept_text)
      { original_tokens := original_tokens, compacted_tokens := compacted_tokens,
        compressionRatioQ :=
          if 0 < original_tokens then (compacted_tokens : ℚ) / (original_tokens : ℚ) else 1,
        summary := summary,
        preserved_facts := all_facts.take 10,
        kept_turns := turns_to_keep.length,
        compacted_turns := turns_to_summarize.length }

/-- get_compacted_context from compactor.py. -/
def get_compacted_context (cfg : CompactionConfig) (turns : List Turn) : String :=
  let result := compact cfg turns
  if result.summary = "" then "" else
  let parts :=
    [result.summary] ++
    (if result.preserved_facts = [] then [] else
      ["[Preserved facts: " ++ joinWith "; " result.preserved_facts ++ "]"])
  joinWith "\n" parts

/-- A JSON-like metadata value, covering the value shapes the service stores
in metadata dicts (profile fields, record fields, detail bags). -/
inductive MetaVal where
  | s (v : String)
  | n (v : Int)
  | q (v : ℚ)
  | b (v : Bool)
  | strs (v : List String)
  | pairs (v : List (String × String))
deriving Repr, DecidableEq

/-- UserProfile from memory_service.py.  The created_at/updated_at
default_factory timestamps are supplied by the caller in this model. -/
structure UserProfile where
  user_id : String
  created_at : String := ""
  updated_at : String := ""
  city : String := ""
  country : String := ""
  climate_zone : String := ""
  diet_type : String := ""
  meat_meals_per_week : Int := 0
  local_food_percentage : Int := 0
  primary_transport : String := ""
  car_type : String := ""
  commute_distance_km : ℚ := 0
  flights_per_year : Int := 0
  home_type : String := ""
  electricity_kwh_monthly : ℚ := 0
  gas_m3_monthly : ℚ := 0
  renewable_energy_percentage : Int := 0
  shopping_frequency : String := ""
  recycling_habits : String := ""
  reduction_goal_percentage : Int := 20
  priority_areas : List String := []
deriving Repr, DecidableEq

/-- FootprintRecord from memory_service.py (emissions as exact rationals). -/
structure FootprintRecord where
  record_id : String
  user_id : String
  timestamp : String
  category : String
  activity : String
  emissions_kg_co2 : ℚ
  details : List (String × String) := []
deriving Repr, DecidableEq

/-- MemoryEntry from memory_service.py. -/
structure MemoryEntry where
  entry_id : String
  user_id : String
  app_name : String
  content : String
  category : String
  timestamp : String
  metadata : List (String × MetaVal) := []
  embedding : Option (List ℚ) := none
deriving Repr, DecidableEq

/-- UserProfile.to_dict, in dataclass field order. -/
def profileToDict (p : UserProfile) : List (String × MetaVal) :=
  [("user_id", .s p.user_id), ("created_at", .s p.created_at),
   ("updated_at", .s p.updated_at), ("city", .s p.city),
   ("country", .s p.country), ("climate_zone", .s p.climate_zone),
   ("diet_type", .s p.diet_type), ("meat_meals_per_week", .n p.meat_meals_per_week),
   ("local_food_percentage", .n p.local_food_percentage),
   ("primary_transport", .s p.primary_transport), ("car_type", .s p.car_type),
   ("commute_distance_km", .q p.commute_distance_km),
   ("flights_per_year", .n p.flights_per_year), ("home_type", .s p.home_type),
   ("electricity_kwh_monthly", .q p.electricity_kwh_monthly),
   ("gas_m3_monthly", .q p.gas_m3_monthly),
   ("renewable_energy_percentage", .n p.renewable_energy_percentage),
   ("shopping_frequency", .s p.shopping_frequency),
   ("recycling_habits", .s p.recycling_habits),
   ("reduction_goal_percentage", .n p.reduction_goal_percentage),
   ("priority_areas", .strs p.priority_areas)]

/-- FootprintRecord.to_dict, in dataclass field order. -/
def recordToDict (r : FootprintRecord) : List (String × MetaVal) :=
  [("record_id", .s r.record_id), ("user_id", .s r.user_id),
   ("timestamp", .s r.timestamp), ("category", .s r.category),
   ("activity", .s r.activity), ("emissions_kg_co2", .q r.emissions_kg_co2),
   ("details", .pairs r.details)]

/-- The in-memory stores of ClimateGuardMemoryService: profiles, per-user
memory lists, per-user footprint history, plus a fresh-id counter that
models uuid-based id generation. -/
structure MemState where
  profiles : String → Option UserProfile
  memories : String → List MemoryEntry
  footprints : String → List FootprintRecord
  next_id : Nat

/-- A freshly constructed service: empty dicts. -/
def initState : MemState :=
  { profiles := fun _ => none, memories := fun _ => [], footprints := fun _ => [],
    next_id := 0 }

/-- _generate_id: a fresh unique id with the given tag (uuid modelled as a
counter). -/
def generate_id (tag : String) (s : MemState) : String × MemState :=
  (tag ++ "_" ++ toString s.next_id, { s with next_id := s.next_id + 1 })

/-- The status dict returned by add_memory. -/
structure AddAck where
  status : String
  entry_id : String
  message : String
deriving Repr, DecidableEq

/-- The status dict returned by save_profile / update_profile (user_id is
absent on the update_profile error path). -/
structure Ack where
  status : String
  message : String
  user_id : Option String := none
deriving Repr, DecidableEq

/-- add_memory from memory_service.py: appends a MemoryEntry to the
per-user list (creating it when absent). -/
def add_memory (now uid app content category : String)
    (metadata : List (String × MetaVal)) (s : MemState) : AddAck × MemState :=
  let idp := generate_id "mem" s
  let entry : MemoryEntry :=
    { entry_id := idp.1, user_id := uid, app_name := app, content := content,
      category := category, timestamp := now, metadata := metadata, embedding := none }
  let s2 := { idp.2 with
    memories := fun u => if u = uid then idp.2.memories u ++ [entry] else idp.2.memories u }
  ({ status := "success", entry_id := idp.1, message := "Memory added successfully" }, s2)

/-- The profile-summary text stored by save_profile. -/
def profileSummaryText (p : UserProfile) : String :=
  "User profile: " ++ p.diet_type ++ " diet, " ++ p.primary_transport ++
    " transport, lives in " ++ p.city

/-- save_profile from memory_service.py: stamps updated_at, upserts by
user_id, then stores a profile-summary MemoryEntry.  There is no
validation of user_id anywhere in the function. -/
def save_profile (now : String) (profile : UserProfile) (s : MemState) : Ack × MemState :=
  let p := { profile with updated_at := now }
  let s1 := { s with profiles := fun u => if u = p.user_id then some p else s.profiles u }
  let r2 := add_memory now p.user_id "climateguard" (profileSummaryText p) "profile"
    (profileToDict p) s1
  ({ status := "success", message := "Profile saved", user_id := some p.user_id }, r2.2)

/-- get_profile from memory_service.py. -/
def get_profile (uid : String) (s : MemState) : Option UserProfile :=
  s.profiles uid

/-- One entry of the updates dict passed to update_profile: either a value
for one of the profile attributes (hasattr succeeds) or an unrecognized
key (hasattr fails, entry skipped). -/
inductive ProfileUpdate where
  | user_id (v : String)
  | created_at (v : String)
  | updated_at (v : String)
  | city (v : String)
  | country (v : String)
  | climate_zone (v : String)
  | diet_type (v : String)
  | meat_meals_per_week (v : Int)
  | local_food_percentage (v : Int)
  | primary_transport (v : String)
  | car_type (v : String)
  | commute_distance_km (v : ℚ)
  | flights_per_year (v : Int)
  | home_type (v : String)
  | electricity_kwh_monthly (v : ℚ)
  | gas_m3_monthly (v : ℚ)
  | renewable_energy_percentage (v : Int)
  | shopping_frequency (v : String)
  | recycling_habits (v : String)
  | reduction_goal_percentage (v : Int)
  | priority_areas (v : List String)
  | unknown (key : String) (v : MetaVal)
deriving Repr, DecidableEq

/-- setattr for a recognized key; an unrecognized key leaves the profile
unchanged (the hasattr guard in update_profile). -/
def applyUpdate (p : UserProfile) : ProfileUpdate → UserProfile
  | .user_id v => { p with user_id := v }
  | .created_at v => { p with created_at := v }
  | .updated_at v => { p with updated_at := v }
  | .city v => { p with city := v }
  | .country v => { p with country := v }
  | .climate_zone v => { p with climate_zone := v }
  | .diet_type v => { p with diet_type := v }
  | .meat_meals_per_week v => { p with meat_meals_per_week := v }
  | .local_food_percentage v => { p with local_food_percentage := v }
  | .primary_transport v => { p with primary_transport := v }
  | .car_type v => { p with car_type := v }
  | .commute_distance_km v => { p with commute_distance_km := v }
  | .flights_per_year v => { p with flights_per_year := v }
  | .home_type v => { p with home_type := v }
  | .electricity_kwh_monthly v => { p with electricity_kwh_monthly := v }
  | .gas_m3_monthly v => { p with gas_m3_monthly := v }
  | .renewable_energy_percentage v => { p with renewable_energy_percentage := v }
  | .shopping_frequency v => { p with shopping_frequency := v }
  | .recycling_habits v => { p with recycling_habits := v }
  | .reduction_goal_percentage v => { p with reduction_goal_percentage := v }
  | .priority_areas v => { p with priority_areas := v }
  | .unknown _ _ => p

/-- update_profile from memory_service.py: error dict on a missing profile,
otherwise apply the recognized updates in order, stamp updated_at, and
delegate to save_profile (both datetime.now() calls modelled by now). -/
def update_profile (now uid : String) (updates : List ProfileUpdate)
    (s : MemState) : Ack × MemState :=
  match s.profiles uid with
  | none =>
    ({ status := "error", message := "Profile not found for user " ++ uid,
       user_id := none }, s)
  | some profile =>
    let p1 := updates.foldl applyUpdate profile
    save_profile now { p1 with updated_at := now } s

/-- The status dict returned by record_footprint. -/
structure RecordAck where
  status : String
  record_id : String
  emissions_kg_co2 : ℚ
deriving Repr, DecidableEq

/-- record_footprint from memory_service.py: appends a FootprintRecord and
stores a derived MemoryEntry tagged footprint (float formatting of the
emissions value in the content modelled by the rational's toString). -/
def record_footprint (now uid category activity : String) (emissions_kg_co2 : ℚ)
    (details : List (String × String)) (s : MemState) : RecordAck × MemState :=
  let idp := generate_id "fp" s
  let record : FootprintRecord :=
    { record_id := idp.1, user_id := uid, timestamp := now, category := category,
      activity := activity, emissions_kg_co2 := emissions_kg_co2, details := details }
  let s2 := { idp.2 with
    footprints := fun u => if u = uid then idp.2.footprints u ++ [record] else idp.2.footprints u }
  let r3 := add_memory now uid "climateguard"
    ("Footprint recorded: " ++ activity ++ " - " ++ toString emissions_kg_co2 ++
      " kg CO2 (" ++ category ++ ")") "footprint" (recordToDict record) s2
  ({ status := "success", record_id := idp.1, emissions_kg_co2 := emissions_kg_co2 }, r3.2)

/-- Python round(x, 2) (float half-even rounding modelled as rational
rounding to the nearest hundredth; no claim exercises the tie direction). -/
def round2 (x : ℚ) : ℚ :=
  ((round (x * 100) : ℤ) : ℚ) / 100

/-- by_category accumulation: dict insertion-order fold of emissions. -/
def addToCat (acc : List (String × ℚ)) (cat : String) (v : ℚ) : List (String × ℚ) :=
  match acc with
  | [] => [(cat, v)]
  | (k, x) :: rest => if k = cat then (k, x + v) :: rest else (k, x) :: addToCat rest cat v

/-- The two-point trend heuristic of get_footprint_history: improving iff
more than one record and the last magnitude is strictly below the first. -/
def trendOf (records : List FootprintRecord) : String :=
  match records with
  | [] => "needs_attention"
  | first :: rest =>
    match rest.getLast? with
    | none => "needs_attention"
    | some last => if last.emissions_kg_co2 < first.emissions_kg_co2
        then "improving" else "needs_attention"

/-- The dict returned by get_footprint_history. -/
structure HistoryResult where
  status : String
  user_id : String
  records_count : Nat
  total_emissions_kg_co2 : ℚ
  by_category : List (String × ℚ)
  records : List FootprintRecord
  trend : String
deriving Repr, DecidableEq

/-- The category filtering step of get_footprint_history (an empty-string
category is falsy in Python, hence no filtering). -/
def filteredRecords (category : Option String) (records0 : List FootprintRecord) :
    List FootprintRecord :=
  match category with
  | none => records0
  | some c => if c = "" then records0 else records0.filter (fun r => r.category = c)

/-- get_footprint_history from memory_service.py.  The days parameter is
accepted and never read, exactly as in the source. -/
def get_footprint_history (uid : String) (category : Option String) (days : Nat)
    (s : MemState) : HistoryResult :=
  let records := filteredRecords category (s.footprints uid)
  { status := "success", user_id := uid, records_count := records.length,
    total_emissions_kg_co2 := round2 (records.foldl (fun a r => a + r.emissions_kg_co2) 0),
    by_category := (records.foldl (fun acc r => addToCat acc r.category r.emissions_kg_co2) []).map
      (fun kv => (kv.1, round2 kv.2)),
    records := records.drop (records.length - 10),
    trend := trendOf records }

/-- One result dict of search_memory. -/
structure SearchHit where
  entry_id : String
  content : String
  category : String
  timestamp : String
  relevance_score : Nat
  metadata : List (String × MetaVal)
deriving Repr, DecidableEq

/-- The category filter of search_memory (an empty-string category is falsy
in Python, hence no filtering). -/
def passFilter (category : Option String) (m : MemoryEntry) : Bool :=
  match category with
  | none => true
  | some c => c == "" || m.category == c

/-- set(query.lower().split()): distinct lower-cased whitespace-separated
query words. -/
def queryWordsOf (query : String) : List String :=
  ((splitOnPred isSpaceChar (lowerStr query)).filter (fun w => w ≠ "")).dedup

/-- The keyword score of one entry: how many distinct query words occur as
substrings of the lower-cased content. -/
def entryScore (queryWords : List String) (m : MemoryEntry) : Nat :=
  (queryWords.filter (fun w => containsStr (lowerStr m.content) w)).length

/-- Build the result dict for one scored entry. -/
def toHit (sm : Nat × MemoryEntry) : SearchHit :=
  { entry_id := sm.2.entry_id, content := sm.2.content, category := sm.2.category,
    timestamp := sm.2.timestamp, relevance_score := sm.1, metadata := sm.2.metadata }

/-- The scoring-and-filtering loop of search_memory: each entry passing the
category filter is paired with its keyword score, zero scores dropped. -/
def scoredOf (qws : List String) (category : Option String) (mems : List MemoryEntry) :
    List (Nat × MemoryEntry) :=
  mems.filterMap (fun m =>
    if passFilter category m then
      if 0 < entryScore qws m then some (entryScore qws m, m) else none
    else none)

/-- Stable insertion step for the descending sort: x passes every element
with a strictly higher score and lands before the first element whose score
is less than or equal to its own (so earlier tied elements stay first). -/
def insertDesc (x : Nat × MemoryEntry) : List (Nat × MemoryEntry) → List (Nat × MemoryEntry)
  | [] => [x]
  | y :: ys => if x.1 < y.1 then y :: insertDesc x ys else x :: y :: ys

/-- Stable descending sort by score.  Python list.sort(key, reverse=True)
is a stable sort, and the stable descending sort of a list is unique, so
this insertion sort computes exactly the list the source produces. -/
def sortDesc : List (Nat × MemoryEntry) → List (Nat × MemoryEntry)
  | [] => []
  | x :: xs => insertDesc x (sortDesc xs)

/-- search_memory from memory_service.py: keyword scoring, zero scores
dropped, stable descending sort (Python list.sort with reverse=True is
stable; modelled by mergeSort, which computes the same unique stable
result), top limit returned. -/
def search_memory (app uid query : String) (category : Option String) (limit : Nat)
    (s : MemState) : List SearchHit :=
  let mems := s.memories uid
  if mems = [] then [] else
  let scored := scoredOf (queryWordsOf query) category mems
  ((sortDesc scored).take limit).map toHit

/-! Concrete fixtures used by the scenario theorems and counterexamples. -/

/-- A single within-budget turn whose text contains eleven distinct
commitment sentences (each has the commitment word will and the allow-list
keyword co2). -/
def turnsC3 : List Turn :=
  [Turn.mk "user"
    ("i will co2 a. i will co2 b. i will co2 c. i will co2 d. i will co2 e. " ++
     "i will co2 f. i will co2 g. i will co2 h. i will co2 i. i will co2 j. i will co2 k.")]

/-- The config of the ten-turn commitment scenario: minTurnsToKeep 3 and a
budget low enough that the conversation is over budget. -/
def cfg4 : CompactionConfig :=
  { max_tokens := 1, min_turns_to_keep := 3 }

/-- A ten-turn conversation whose fifth turn contains the commitment text;
no other turn contains a commitment word, a quantity, or a preference. -/
def turns4 : List Turn :=
  [Turn.mk "user" "hello there.",
   Turn.mk "assistant" "the sky is blue.",
   Turn.mk "user" "rain fell today.",
   Turn.mk "assistant" "birds sang loudly.",
   Turn.mk "user" "I commit to Meatless Mondays.",
   Turn.mk "assistant" "coffee was warm.",
   Turn.mk "user" "the road was long.",
   Turn.mk "assistant" "music played softly.",
   Turn.mk "user" "dinner was pasta.",
   Turn.mk "assistant" "stars shone brightly."]

/-- A memory entry fixture for the retrieval counterexample. -/
def mkEntry (eid content category : String) : MemoryEntry :=
  { entry_id := eid, user_id := "u1", app_name := "climateguard", content := content,
    category := category, timestamp := "t0", metadata := [], embedding := none }

/-- Six stored entries for user u1: five containing beta, then a single one
containing alpha (insertion order puts the alpha entry last). -/
def st7 : MemState :=
  { initState with memories := fun u =>
      if u = "u1" then
        [mkEntry "m1" "beta" "goal", mkEntry "m2" "beta" "goal",
         mkEntry "m3" "beta" "goal", mkEntry "m4" "beta" "goal",
         mkEntry "m5" "beta" "goal", mkEntry "m6" "alpha" "goal"]
      else [] }

/-- The state after recording magnitudes 10.5 then 8.0 for the same user. -/
def c8state : MemState :=
  (record_footprint "t2" "test_user" "transport" "commute" (8 : ℚ) []
    (record_footprint "t1" "test_user" "transport" "commute" (10.5 : ℚ) [] initState).2).2

/-- A zero-budget config with the default minTurnsToKeep of 3. -/
def cfg9 : CompactionConfig :=
  { max_tokens := 0 }

/-- Three over-budget turns, each holding one extractable commitment fact;
keepCount 3 covers the whole sequence, so nothing is summarized. -/
def turns9 : List Turn :=
  [Turn.mk "u" "I will eat meatless food.",
   Turn.mk "a" "I promise to reduce waste.",
   Turn.mk "u" "my goal is solar power."]

/-- A zero-budget config whose minTurnsToKeep is zero. -/
def cfg2x : CompactionConfig :=
  { max_tokens := 0, min_turns_to_keep := 0 }

/-- A single over-budget turn (keepCount evaluates to zero under cfg2x). -/
def turns2x : List Turn :=
  [Turn.mk "user" "aaaa"]

/-- A store holding one profile, for the patch-scenario witness. -/
def c6base : MemState :=
  (save_profile "t0" { user_id := "alice" } initState).2

/-! Shared lemmas about the embedding (not tied to a single claim). -/

theorem extract_key_facts_empty (cfg : CompactionConfig) :
    extract_key_facts cfg "" = [] :=
  rfl

theorem compact_eq_of_le (cfg : CompactionConfig) (turns : List Turn)
    (h : estimate_tokens (fullText turns) ≤ cfg.max_tokens) :
    compact cfg turns =
      { original_tokens := estimate_tokens (fullText turns),
        compacted_tokens := estimate_tokens (fullText turns),
        compressionRatioQ := 1, summary := "",
        preserved_facts := extract_key_facts cfg (fullText turns),
        kept_turns := turns.length, compacted_turns := 0 } := by
  cases turns with
  | nil => rfl
  | cons t ts =>
    unfold compact
    rw [if_neg (List.cons_ne_nil t ts)]
    simp only []
    rw [if_pos h]

theorem compact_eq_of_gt (cfg : CompactionConfig) (turns : List Turn)
    (hne : turns ≠ []) (h : cfg.max_tokens < estimate_tokens (fullText turns)) :
    compact cfg turns =
      { original_tokens := estimate_tokens (fullText turns),
        compacted_tokens := estimate_tokens
          (summarize_turns cfg (turnsToSummarize cfg turns) ++ " " ++
            fullText (turnsToKeep cfg turns)),
        compressionRatioQ :=
          if 0 < estimate_tokens (fullText turns) then
            ((estimate_tokens (summarize_turns cfg (turnsToSummarize cfg turns) ++ " " ++
              fullText (turnsToKeep cfg turns)) : ℚ) /
              (estimate_tokens (fullText turns) : ℚ))
          else 1,
        summary := summarize_turns cfg (turnsToSummarize cfg turns),
        preserved_facts := (extract_key_facts cfg (fullText turns)).take 10,
        kept_turns := (turnsToKeep cfg turns).length,
        compacted_turns := (turnsToSummarize cfg turns).length } := by
  cases turns with
  | nil => exact absurd rfl hne
  | cons t ts =>
    unfold compact
    rw [if_neg (List.cons_ne_nil t ts)]
    simp only []
    rw [if_neg (Nat.not_le.mpr h)]

theorem turnsToKeep_length (cfg : CompactionConfig) (turns : List Turn)
    (hk : 1 ≤ keepCountOf cfg turns) :
    (turnsToKeep cfg turns).length = min (keepCountOf cfg turns) turns.length := by
  unfold turnsToKeep
  rw [if_neg (by omega)]
  rw [List.length_drop]
  omega

theorem turnsToSummarize_length (cfg : CompactionConfig) (turns : List Turn)
    (hk : 1 ≤ keepCountOf cfg turns) :
    (turnsToSummarize cfg turns).length =
      turns.length - min (keepCountOf cfg turns) turns.length := by
  unfold turnsToSummarize
  rw [if_neg (by omega)]
  rw [List.length_take]
  omega

/-! The claims. -/

/-- Claim C1: for every turn sequence whose estimated token count (length of
the space-joined turn contents, integer-divided by 4) is at most
config.maxTokens, compact returns compactedTurns 0, an empty summary,
compactedTokens equal to originalTokens, compressionRatio 1, keptTurns equal
to the number of turns, and preservedFacts equal to extractFacts of the
joined text: a within-budget sequence is never truncated or summarized. -/
theorem C1_under_budget (cfg : CompactionConfig) (turns : List Turn)
    (h : estimate_tokens (fullText turns) ≤ cfg.max_tokens) :
    (compact cfg turns).compacted_turns = 0 ∧
    (compact cfg turns).summary = "" ∧
    (compact cfg turns).compacted_tokens = (compact cfg turns).original_tokens ∧
    (compact cfg turns).original_tokens = estimate_tokens (fullText turns) ∧
    (compact cfg turns).compressionRatioQ = 1 ∧
    (compact cfg turns).kept_turns = turns.length ∧
    (compact cfg turns).preserved_facts = extract_key_facts cfg (fullText turns) := by
  rw [compact_eq_of_le cfg turns h]
  exact ⟨rfl, rfl, rfl, rfl, rfl, rfl, rfl⟩

/-- Witness for C1 at a concrete within-budget input. -/
theorem C1_witness :
    estimate_tokens (fullText [Turn.mk "user" "hi"]) ≤
      ({} : CompactionConfig).max_tokens ∧
    (compact {} [Turn.mk "user" "hi"]).compacted_turns = 0 ∧
    (compact {} [Turn.mk "user" "hi"]).summary = "" ∧
    (compact {} [Turn.mk "user" "hi"]).kept_turns = 1 :=
  ⟨by decide,
   (C1_under_budget {} [Turn.mk "user" "hi"] (by decide)).1,
   (C1_under_budget {} [Turn.mk "user" "hi"] (by decide)).2.1,
   by
    have hfull := (C1_under_budget {} [Turn.mk "user" "hi"] (by decide)).2.2.2.2.2.1
    simpa using hfull⟩

/-- Claim C10: the lookback-days argument of getMeasurementHistory has no
effect on its result: the whole returned record (records, count, totals,
by-category totals, trend) is identical for any two values of days. -/
theorem C10_days_unused (uid : String) (category : Option String)
    (d1 d2 : Nat) (s : MemState) :
    get_footprint_history uid category d1 s = get_footprint_history uid category d2 s :=
  rfl

/-- Claim C2, counterexample: with minTurnsToKeep 0 and a single over-budget
turn, keepCount is 0, yet compact keeps the whole sequence verbatim and
summarizes nothing, while the claim requires summarizing the first
length - keepCount = 1 turns and keeping the last 0. -/
theorem C2_counterexample :
    cfg2x.max_tokens < estimate_tokens (fullText turns2x) ∧
    keepCountOf cfg2x turns2x = 0 ∧
    turns2x.length = 1 ∧
    (compact cfg2x turns2x).kept_turns = 1 ∧
    (compact cfg2x turns2x).compacted_turns = 0 := by
  decide

/-- Claim C2, amended: for a non-empty over-budget sequence with
keepCount = max(minTurnsToKeep, length/3), whenever keepCount is at least 1
compact summarizes the first length - keepCount turns and keeps the last
keepCount verbatim; when keepCount = 0 (possible only with minTurnsToKeep 0
and fewer than 3 turns) the Python slices keep everything and summarize
nothing; in all cases keptTurns is at least min(minTurnsToKeep, length) and
keptTurns + compactedTurns = length. -/
theorem C2_over_budget (cfg : CompactionConfig) (turns : List Turn)
    (hne : turns ≠ []) (h : cfg.max_tokens < estimate_tokens (fullText turns)) :
    (1 ≤ keepCountOf cfg turns →
      (compact cfg turns).summary =
        summarize_turns cfg (turns.take (turns.length - keepCountOf cfg turns)) ∧
      (compact cfg turns).kept_turns = min (keepCountOf cfg turns) turns.length ∧
      (compact cfg turns).compacted_turns =
        turns.length - min (keepCountOf cfg turns) turns.length ∧
      (compact cfg turns).compacted_tokens =
        estimate_tokens
          (summarize_turns cfg (turns.take (turns.length - keepCountOf cfg turns)) ++ " " ++
            fullText (turns.drop (turns.length - keepCountOf cfg turns)))) ∧
    (keepCountOf cfg turns = 0 →
      (compact cfg turns).kept_turns = turns.length ∧
      (compact cfg turns).compacted_turns = 0) ∧
    min cfg.min_turns_to_keep turns.length ≤ (compact cfg turns).kept_turns ∧
    (compact cfg turns).kept_turns + (compact cfg turns).compacted_turns = turns.length := by
  rw [compact_eq_of_gt cfg turns hne h]
  by_cases hk0 : keepCountOf cfg turns = 0
  · refine ⟨fun hk1 => absurd hk0 (by omega), fun _ => ?_, ?_, ?_⟩
    · unfold turnsToKeep turnsToSummarize
      rw [if_pos hk0, if_pos hk0]
      exact ⟨rfl, rfl⟩
    · unfold turnsToKeep
      rw [if_pos hk0]
      exact Nat.min_le_right _ _
    · unfold turnsToKeep turnsToSummarize
      rw [if_pos hk0, if_pos hk0]
      simp
  · have hk1 : 1 ≤ keepCountOf cfg turns := by omega
    have hkeep := turnsToKeep_length cfg turns hk1
    have hsum := turnsToSummarize_length cfg turns hk1
    have hts : turnsToSummarize cfg turns =
        turns.take (turns.length - keepCountOf cfg turns) := by
      unfold turnsToSummarize; rw [if_neg hk0]
    have htk : turnsToKeep cfg turns =
        turns.drop (turns.length - keepCountOf cfg turns) := by
      unfold turnsToKeep; rw [if_neg hk0]
    refine ⟨fun _ => ⟨by rw [hts], ?_, ?_, by rw [hts, htk]⟩, fun hk => absurd hk hk0, ?_, ?_⟩
    · simpa using hkeep
    · simpa using hsum
    · show min cfg.min_turns_to_keep turns.length ≤ (turnsToKeep cfg turns).length
      rw [hkeep]
      have : cfg.min_turns_to_keep ≤ keepCountOf cfg turns := Nat.le_max_left _ _
      omega
    · show (turnsToKeep cfg turns).length + (turnsToSummarize cfg turns).length = turns.length
      rw [hkeep, hsum]
      omega

/-- Witness for the amended C2 at concrete inputs exercising both the
positive-keepCount clause and the zero-keepCount clause. -/
theorem C2_witness :
    (compact { max_tokens := 0 }
      [Turn.mk "u" "aaaa", Turn.mk "a" "bbbb", Turn.mk "u" "cccc", Turn.mk "a" "dddd"]).kept_turns = 3 ∧
    (compact { max_tokens := 0 }
      [Turn.mk "u" "aaaa", Turn.mk "a" "bbbb", Turn.mk "u" "cccc", Turn.mk "a" "dddd"]).compacted_turns = 1 ∧
    (compact cfg2x turns2x).kept_turns = turns2x.length := by
  refine ⟨?_, ?_, ?_⟩
  · have h := ((C2_over_budget { max_tokens := 0 }
      [Turn.mk "u" "aaaa", Turn.mk "a" "bbbb", Turn.mk "u" "cccc", Turn.mk "a" "dddd"]
      (by decide) (by decide)).1 (by decide)).2.1
    rw [h]; decide
  · have h := ((C2_over_budget { max_tokens := 0 }
      [Turn.mk "u" "aaaa", Turn.mk "a" "bbbb", Turn.mk "u" "cccc", Turn.mk "a" "dddd"]
      (by decide) (by decide)).1 (by decide)).2.2.1
    rw [h]; decide
  · exact ((C2_over_budget cfg2x turns2x (by decide) (by decide)).2.1 (by decide)).1

/-- Claim C3, counterexample: a within-budget single turn holding eleven
distinct commitment facts yields preservedFacts of length 11, so the
ten-fact cap claimed for every compaction does not hold on the
within-budget branch. -/
theorem C3_counterexample :
    estimate_tokens (fullText turnsC3) ≤ ({} : CompactionConfig).max_tokens ∧
    (compact {} turnsC3).preserved_facts.length = 11 := by
  decide

/-- Claim C3, amended: preservedFacts is always a subset of extractFacts of
the joined text, and is non-empty whenever that fact list is non-empty; the
ten-fact cap applies exactly on the over-budget branch (the within-budget
branch returns all of extractFacts uncapped). -/
theorem C3_fact_preservation (cfg : CompactionConfig) (turns : List Turn) :
    (compact cfg turns).preserved_facts ⊆ extract_key_facts cfg (fullText turns) ∧
    (cfg.max_tokens < estimate_tokens (fullText turns) →
      (compact cfg turns).preserved_facts =
        (extract_key_facts cfg (fullText turns)).take 10) ∧
    (extract_key_facts cfg (fullText turns) ≠ [] →
      (compact cfg turns).preserved_facts ≠ []) := by
  by_cases hne : turns = []
  · subst hne
    have h0 : (compact cfg ([] : List Turn)).preserved_facts = [] := rfl
    have hx : extract_key_facts cfg (fullText []) = [] := extract_key_facts_empty cfg
    refine ⟨?_, ?_, ?_⟩
    · rw [h0]; exact List.nil_subset _
    · intro hover
      have : estimate_tokens (fullText ([] : List Turn)) = 0 := rfl
      omega
    · intro hfacts; exact absurd hx hfacts
  · by_cases hb : estimate_tokens (fullText turns) ≤ cfg.max_tokens
    · rw [compact_eq_of_le cfg turns hb]
      refine ⟨List.Subset.refl _, fun hover => by omega, fun hfacts => hfacts⟩
    · have hover := Nat.not_le.mp hb
      rw [compact_eq_of_gt cfg turns hne hover]
      refine ⟨List.take_subset _ _, fun _ => rfl, fun hfacts => ?_⟩
      intro htake
      rcases List.take_eq_nil_iff.mp htake with h10 | hl
      · exact absurd h10 (by omega)
      · exact hfacts hl

/-- Witness for the amended C3 at a concrete over-budget input. -/
theorem C3_witness :
    extract_key_facts { max_tokens := 0 }
      (fullText [Turn.mk "u" "I will reduce co2."]) ≠ [] ∧
    (compact { max_tokens := 0 } [Turn.mk "u" "I will reduce co2."]).preserved_facts =
      (extract_key_facts { max_tokens := 0 }
        (fullText [Turn.mk "u" "I will reduce co2."])).take 10 ∧
    (compact { max_tokens := 0 } [Turn.mk "u" "I will reduce co2."]).preserved_facts ≠ [] := by
  refine ⟨by decide, ?_, ?_⟩
  · exact (C3_fact_preservation { max_tokens := 0 } [Turn.mk "u" "I will reduce co2."]).2.1
      (by decide)
  · exact (C3_fact_preservation { max_tokens := 0 } [Turn.mk "u" "I will reduce co2."]).2.2
      (by decide)

/-- Claim C4: with minTurnsToKeep 3 and a budget making the ten-turn
conversation (whose fifth turn commits to Meatless Mondays) over budget,
compact keeps at least 3 turns and preservedFacts contains the fact
"Commitment: I commit to Meatless Mondays", which starts with
"Commitment:" and contains "Meatless Mondays". -/
theorem C4_commitment_scenario :
    cfg4.min_turns_to_keep = 3 ∧
    cfg4.max_tokens < estimate_tokens (fullText turns4) ∧
    3 ≤ (compact cfg4 turns4).kept_turns ∧
    (compact cfg4 turns4).preserved_facts = ["Commitment: I commit to Meatless Mondays"] ∧
    "Commitment:".data.isPrefixOf ("Commitment: I commit to Meatless Mondays").data = true ∧
    containsStr "Commitment: I commit to Meatless Mondays" "Meatless Mondays" = true := by
  decide

/-- Claim C9, counterexample: an over-budget three-turn input whose
keepCount covers the whole sequence produces an empty summary, so
getCompactedContext returns the empty string even though compaction was
needed, and the non-empty preservedFacts line is not emitted. -/
theorem C9_counterexample :
    cfg9.max_tokens < estimate_tokens (fullText turns9) ∧
    (compact cfg9 turns9).preserved_facts ≠ [] ∧
    get_compacted_context cfg9 turns9 = "" := by
  decide

/-- Claim C9, amended: getCompactedContext returns the empty string exactly
when compact produced an empty summary — which covers every within-budget
input, but also over-budget inputs whose summarization yields an empty
summary; when the summary is non-empty it returns the summary and, when
preservedFacts is non-empty, the bracketed preserved-facts line on a second
line. -/
theorem C9_context_string (cfg : CompactionConfig) (turns : List Turn) :
    (get_compacted_context cfg turns = "" ↔ (compact cfg turns).summary = "") ∧
    (estimate_tokens (fullText turns) ≤ cfg.max_tokens →
      get_compacted_context cfg turns = "") ∧
    ((compact cfg turns).summary ≠ "" →
      get_compacted_context cfg turns =
        (compact cfg turns).summary ++
          (if (compact cfg turns).preserved_facts = [] then ""
           else "\n[Preserved facts: " ++
             joinWith "; " (compact cfg turns).preserved_facts ++ "]")) := by
  have h3 : (compact cfg turns).summary ≠ "" →
      get_compacted_context cfg turns =
        (compact cfg turns).summary ++
          (if (compact cfg turns).preserved_facts = [] then ""
           else "\n[Preserved facts: " ++
             joinWith "; " (compact cfg turns).preserved_facts ++ "]") := by
    intro hs
    unfold get_compacted_context
    rw [if_neg hs]
    by_cases hf : (compact cfg turns).preserved_facts = []
    · rw [if_pos hf, if_pos hf]
      rw [String.append_empty]
      rfl
    · rw [if_neg hf, if_neg hf]
      show (compact cfg turns).summary ++ "\n" ++ _ = _
      rw [String.ext_iff]
      simp [joinWith, String.data_append, List.append_assoc]
  refine ⟨⟨?_, ?_⟩, ?_, h3⟩
  · intro hempty
    by_contra hs
    have hctx := h3 hs
    rw [hctx] at hempty
    have hd : ((compact cfg turns).summary ++ _).data = ("" : String).data :=
      congrArg String.data hempty
    rw [String.data_append] at hd
    have : (compact cfg turns).summary.data = [] := by
      have := List.append_eq_nil.mp hd
      exact this.1
    exact hs (String.ext_iff.mpr this)
  · intro hs
    unfold get_compacted_context
    rw [if_pos hs]
  · intro hb
    have hs : (compact cfg turns).summary = "" := by
      rw [compact_eq_of_le cfg turns hb]
    unfold get_compacted_context
    rw [if_pos hs]

/-- Witness for the amended C9: a within-budget input gives the empty
string, and an over-budget input with a non-empty summary gives the
summary followed by the preserved-facts line. -/
theorem C9_witness :
    get_compacted_context {} [Turn.mk "u" "hello"] = "" ∧
    get_compacted_context { max_tokens := 0, min_turns_to_keep := 1 }
      [Turn.mk "u" "I will eat meatless food.", Turn.mk "a" "no."] =
      (compact { max_tokens := 0, min_turns_to_keep := 1 }
        [Turn.mk "u" "I will eat meatless food.", Turn.mk "a" "no."]).summary ++
        ("\n[Preserved facts: " ++
          joinWith "; "
            (compact { max_tokens := 0, min_turns_to_keep := 1 }
              [Turn.mk "u" "I will eat meatless food.", Turn.mk "a" "no."]).preserved_facts ++
          "]") := by
  constructor
  · exact (C9_context_string {} [Turn.mk "u" "hello"]).2.1 (by decide)
  · have h := (C9_context_string { max_tokens := 0, min_turns_to_keep := 1 }
      [Turn.mk "u" "I will eat meatless food.", Turn.mk "a" "no."]).2.2 (by decide)
    rw [h, if_neg (by decide)]

/-- Claim C5, counterexample: save_profile with an empty identity does not
fail — there is no validation path in the function; it returns success and
stores the profile under the empty key. -/
theorem C5_counterexample :
    ({ user_id := "" } : UserProfile).user_id = "" ∧
    (save_profile "t0" { user_id := "" } initState).1.status = "success" ∧
    (save_profile "t0" { user_id := "" } initState).2.profiles "" =
      some { user_id := "", updated_at := "t0" } := by
  decide

/-- Claim C5, amended: save_profile always succeeds — for every profile,
including one with an empty identity — upserting by identity and appending
exactly one profile-summary MemoryEntry (diet, transport, location) tagged
profile for that identity, leaving every other key untouched. -/
theorem C5_save_profile (now : String) (p : UserProfile) (s : MemState) :
    (save_profile now p s).1 =
      { status := "success", message := "Profile saved", user_id := some p.user_id } ∧
    (save_profile now p s).2.profiles p.user_id = some { p with updated_at := now } ∧
    (∀ u, u ≠ p.user_id → (save_profile now p s).2.profiles u = s.profiles u) ∧
    (save_profile now p s).2.memories p.user_id =
      s.memories p.user_id ++
        [{ entry_id := "mem_" ++ toString s.next_id, user_id := p.user_id,
           app_name := "climateguard",
           content := profileSummaryText { p with updated_at := now },
           category := "profile", timestamp := now,
           metadata := profileToDict { p with updated_at := now }, embedding := none }] ∧
    (∀ u, u ≠ p.user_id → (save_profile now p s).2.memories u = s.memories u) := by
  refine ⟨rfl, ?_, fun u hu => ?_, ?_, fun u hu => ?_⟩
  · simp [save_profile, add_memory, generate_id]
  · simp [save_profile, add_memory, generate_id, hu]
  · simp [save_profile, add_memory, generate_id]
  · simp [save_profile, add_memory, generate_id, hu]

/-- Witness for the amended C5 at a concrete profile and store. -/
theorem C5_witness :
    (save_profile "t1" { user_id := "bob" } initState).1.status = "success" ∧
    (save_profile "t1" { user_id := "bob" } initState).2.profiles "other" = none := by
  have h := C5_save_profile "t1" { user_id := "bob" } initState
  constructor
  · rw [h.1]
  · rw [h.2.2.1 "other" (by decide)]
    rfl

/-- Claim C6: update_profile on a missing identity returns the
profile-not-found error and leaves the store untouched; on an existing
identity it folds the recognized updates over the profile (unrecognized
keys are identity steps) and delegates to save_profile, which regenerates
the profile-summary MemoryEntry. -/
theorem C6_patch_profile (now uid : String) (updates : List ProfileUpdate) (s : MemState) :
    (s.profiles uid = none →
      update_profile now uid updates s =
        ({ status := "error", message := "Profile not found for user " ++ uid,
           user_id := none }, s)) ∧
    (∀ p, s.profiles uid = some p →
      update_profile now uid updates s =
        save_profile now { updates.foldl applyUpdate p with updated_at := now } s) ∧
    (∀ q k v, applyUpdate q (ProfileUpdate.unknown k v) = q) := by
  refine ⟨fun h => ?_, fun p h => ?_, fun q k v => rfl⟩
  · unfold update_profile
    rw [h]
  · unfold update_profile
    rw [h]

/-- Witness for C6: a missing identity gives the error ack with the store
unchanged; an existing identity patched with one recognized field and one
unrecognized key delegates to save_profile on the folded profile. -/
theorem C6_witness :
    (update_profile "t1" "bob" [] initState).1.status = "error" ∧
    (update_profile "t1" "bob" [] initState).2 = initState ∧
    update_profile "t1" "alice"
        [ProfileUpdate.city "paris", ProfileUpdate.unknown "bogus" (MetaVal.s "x")] c6base =
      save_profile "t1"
        { ([ProfileUpdate.city "paris",
            ProfileUpdate.unknown "bogus" (MetaVal.s "x")].foldl applyUpdate
              { user_id := "alice", updated_at := "t0" }) with updated_at := "t1" } c6base := by
  have h1 := (C6_patch_profile "t1" "bob" [] initState).1 rfl
  refine ⟨by rw [h1], by rw [h1], ?_⟩
  have hfound : c6base.profiles "alice" = some { user_id := "alice", updated_at := "t0" } := by
    simp [c6base, save_profile, add_memory, generate_id, initState]
  exact (C6_patch_profile "t1" "alice"
    [ProfileUpdate.city "paris", ProfileUpdate.unknown "bogus" (MetaVal.s "x")] c6base).2.1
    { user_id := "alice", updated_at := "t0" } hfound

/-- Claim C8: getMeasurementHistory labels the trend improving exactly when
the category-filtered list has at least two records and the last recorded
magnitude is strictly below the first; and the concrete two-measurement
scenario (10.5 then 8.0) is labelled improving. -/
theorem C8_trend_rule (s : MemState) (uid : String) (category : Option String) (days : Nat) :
    ((get_footprint_history uid category days s).trend = "improving" ↔
      2 ≤ (filteredRecords category (s.footprints uid)).length ∧
      ∃ f l, (filteredRecords category (s.footprints uid)).head? = some f ∧
        (filteredRecords category (s.footprints uid)).getLast? = some l ∧
        l.emissions_kg_co2 < f.emissions_kg_co2) ∧
    (get_footprint_history "test_user" none 30 c8state).trend = "improving" := by
  constructor
  · show trendOf (filteredRecords category (s.footprints uid)) = "improving" ↔ _
    generalize filteredRecords category (s.footprints uid) = R
    match R with
    | [] =>
      constructor
      · intro habs; exact absurd habs (by decide)
      · rintro ⟨hlen, -⟩; exact absurd hlen (by decide)
    | [f] =>
      constructor
      · intro habs
        have h1 : trendOf [f] = "needs_attention" := rfl
        rw [h1] at habs
        exact absurd habs (by decide)
      · rintro ⟨hlen, -⟩
        simp at hlen
    | f :: r :: rs =>
      have hlast : ∃ l, (r :: rs).getLast? = some l := by
        cases hg : (r :: rs).getLast? with
        | none => exact absurd (List.getLast?_eq_none.mp hg) (List.cons_ne_nil r rs)
        | some l => exact ⟨l, rfl⟩
      obtain ⟨l, hl⟩ := hlast
      have hstep : trendOf (f :: r :: rs) =
          (match (r :: rs).getLast? with
          | none => "needs_attention"
          | some last =>
            if last.emissions_kg_co2 < f.emissions_kg_co2
              then "improving" else "needs_attention") := rfl
      have htrend : trendOf (f :: r :: rs) =
          if l.emissions_kg_co2 < f.emissions_kg_co2
            then "improving" else "needs_attention" := by
        rw [hstep, hl]
      rw [htrend]
      by_cases hc : l.emissions_kg_co2 < f.emissions_kg_co2
      · rw [if_pos hc]
        constructor
        · intro _
          refine ⟨by simp, f, l, rfl, ?_, hc⟩
          rw [List.getLast?_cons_cons, hl]
        · intro _; rfl
      · rw [if_neg hc]
        constructor
        · intro habs; exact absurd habs (by decide)
        · rintro ⟨-, f', l', hh, hl', hcmp⟩
          simp only [List.head?_cons, Option.some.injEq] at hh
          rw [List.getLast?_cons_cons, hl] at hl'
          simp only [Option.some.injEq] at hl'
          rw [← hh, ← hl'] at hcmp
          exact absurd hcmp hc
  · show trendOf (filteredRecords none (c8state.footprints "test_user")) = "improving"
    simp only [c8state, record_footprint, add_memory, generate_id, initState, filteredRecords]
    norm_num [trendOf, List.getLast?]

/-! Lemmas about the stable descending sort used by search_memory. -/

theorem insertDesc_perm (x : Nat × MemoryEntry) (l : List (Nat × MemoryEntry)) :
    (insertDesc x l).Perm (x :: l) := by
  induction l with
  | nil => exact List.Perm.refl _
  | cons y ys ih =>
    unfold insertDesc
    by_cases h : x.1 < y.1
    · rw [if_pos h]
      exact (ih.cons y).trans (List.Perm.swap x y ys)
    · rw [if_neg h]

theorem mem_insertDesc {a x : Nat × MemoryEntry} {l : List (Nat × MemoryEntry)} :
    a ∈ insertDesc x l ↔ a = x ∨ a ∈ l := by
  rw [(insertDesc_perm x l).mem_iff]
  simp

theorem sortDesc_perm (l : List (Nat × MemoryEntry)) : (sortDesc l).Perm l := by
  induction l with
  | nil => exact List.Perm.refl _
  | cons x xs ih => exact (insertDesc_perm x (sortDesc xs)).trans (ih.cons x)

theorem insertDesc_sorted (x : Nat × MemoryEntry) (l : List (Nat × MemoryEntry))
    (h : l.Pairwise (fun p q => q.1 ≤ p.1)) :
    (insertDesc x l).Pairwise (fun p q => q.1 ≤ p.1) := by
  induction l with
  | nil => simp [insertDesc]
  | cons y ys ih =>
    rw [List.pairwise_cons] at h
    unfold insertDesc
    by_cases hxy : x.1 < y.1
    · rw [if_pos hxy, List.pairwise_cons]
      constructor
      · intro a ha
        rcases mem_insertDesc.mp ha with rfl | ha'
        · omega
        · exact h.1 a ha'
      · exact ih h.2
    · rw [if_neg hxy, List.pairwise_cons]
      constructor
      · intro a ha
        rcases List.mem_cons.mp ha with rfl | ha'
        · omega
        · have := h.1 a ha'
          omega
      · exact List.pairwise_cons.mpr h

theorem sortDesc_sorted (l : List (Nat × MemoryEntry)) :
    (sortDesc l).Pairwise (fun p q => q.1 ≤ p.1) := by
  induction l with
  | nil => exact List.Pairwise.nil
  | cons x xs ih => exact insertDesc_sorted x (sortDesc xs) ih

theorem filter_insertDesc (k : Nat) (x : Nat × MemoryEntry)
    (l : List (Nat × MemoryEntry)) :
    (insertDesc x l).filter (fun p => p.1 == k) =
      if x.1 = k then x :: l.filter (fun p => p.1 == k)
      else l.filter (fun p => p.1 == k) := by
  induction l with
  | nil =>
    by_cases hx : x.1 = k
    · simp [insertDesc, List.filter, beq_iff_eq, hx]
    · have hb : (x.1 == k) = false := beq_eq_false_iff_ne.mpr hx
      simp [insertDesc, List.filter, hb]
      exact hx
  | cons y ys ih =>
    unfold insertDesc
    by_cases hxy : x.1 < y.1
    · rw [if_pos hxy, List.filter_cons]
      by_cases hy : y.1 = k
      · have hx : ¬x.1 = k := by omega
        rw [if_pos (by simp [hy]), ih, if_neg hx, if_neg hx, List.filter_cons,
          if_pos (by simp [hy])]
      · rw [if_neg (by simp [hy]), ih]
        by_cases hx : x.1 = k
        · rw [if_pos hx, if_pos hx, List.filter_cons, if_neg (by simp [hy])]
        · rw [if_neg hx, if_neg hx, List.filter_cons, if_neg (by simp [hy])]
    · rw [if_neg hxy, List.filter_cons]
      by_cases hx : x.1 = k
      · rw [if_pos (by simp [hx]), if_pos hx]
      · rw [if_neg (by simp [hx]), if_neg hx]

theorem filter_sortDesc (k : Nat) (l : List (Nat × MemoryEntry)) :
    (sortDesc l).filter (fun p => p.1 == k) = l.filter (fun p => p.1 == k) := by
  induction l with
  | nil => rfl
  | cons x xs ih =>
    show (insertDesc x (sortDesc xs)).filter _ = _
    rw [filter_insertDesc]
    by_cases hx : x.1 = k
    · rw [if_pos hx, ih, List.filter_cons, if_pos (by simp [hx])]
    · rw [if_neg hx, ih, List.filter_cons, if_neg (by simp [hx])]

theorem mem_scoredOf {qws : List String} {category : Option String}
    {mems : List MemoryEntry} {k : Nat} {m : MemoryEntry} :
    (k, m) ∈ scoredOf qws category mems ↔
      m ∈ mems ∧ passFilter category m = true ∧ 0 < entryScore qws m ∧
        k = entryScore qws m := by
  unfold scoredOf
  rw [List.mem_filterMap]
  constructor
  · rintro ⟨m', hm', hf⟩
    by_cases h1 : passFilter category m' = true
    · rw [if_pos h1] at hf
      by_cases h2 : 0 < entryScore qws m'
      · rw [if_pos h2] at hf
        simp only [Option.some.injEq, Prod.mk.injEq] at hf
        obtain ⟨hk, hm⟩ := hf
        subst hm
        exact ⟨hm', h1, h2, hk.symm⟩
      · rw [if_neg h2] at hf
        exact absurd hf (by simp)
    · rw [if_neg h1] at hf
      exact absurd hf (by simp)
  · rintro ⟨hm, h1, h2, hk⟩
    refine ⟨m, hm, ?_⟩
    rw [if_pos h1, if_pos h2, hk]

/-- Claim C7, counterexample: with the default limit of 5 and six stored
entries each scoring 1, the unique entry containing the query word alpha is
stored last, so the stable descending sort leaves it in sixth place and the
top-5 cut drops it: the claim that such an entry is always yielded fails. -/
theorem C7_counterexample :
    ((st7.memories "u1").filter
      (fun m => containsStr (lowerStr m.content) "alpha")).map (fun m => m.entry_id) =
        ["m6"] ∧
    (search_memory "climateguard" "u1" "alpha beta" none 5 st7).map
      (fun h => h.entry_id) = ["m1", "m2", "m3", "m4", "m5"] := by
  decide

/-- Claim C7, amended: search_memory scores each category-passing entry by
the number of distinct lower-cased query words occurring as substrings of
the lower-cased content; zero-scoring entries never enter the candidate
list, every returned hit is a stored entry carrying its true score of at
least 1, at most limit hits are returned in non-increasing score order with
ties kept in insertion order, and a positively scoring entry is returned
whenever the candidates number at most limit (it can be cut when they
exceed limit). -/
theorem C7_search_ranking (s : MemState) (app uid query : String)
    (category : Option String) (limit : Nat) :
    (search_memory app uid query category limit s).length ≤ limit ∧
    (∀ h ∈ search_memory app uid query category limit s,
      ∃ m ∈ s.memories uid, passFilter category m = true ∧
        1 ≤ entryScore (queryWordsOf query) m ∧
        h = toHit (entryScore (queryWordsOf query) m, m)) ∧
    (∀ m : MemoryEntry, entryScore (queryWordsOf query) m = 0 →
      ∀ k, (k, m) ∉ scoredOf (queryWordsOf query) category (s.memories uid)) ∧
    (search_memory app uid query category limit s).Pairwise
      (fun a b => b.relevance_score ≤ a.relevance_score) ∧
    (∀ k, (sortDesc (scoredOf (queryWordsOf query) category (s.memories uid))).filter
        (fun p => p.1 == k) =
      (scoredOf (queryWordsOf query) category (s.memories uid)).filter
        (fun p => p.1 == k)) ∧
    (s.memories uid ≠ [] →
      search_memory app uid query category limit s =
        ((sortDesc (scoredOf (queryWordsOf query) category (s.memories uid))).take
          limit).map toHit) ∧
    ((scoredOf (queryWordsOf query) category (s.memories uid)).length ≤ limit →
      ∀ p ∈ scoredOf (queryWordsOf query) category (s.memories uid),
        toHit p ∈ search_memory app uid query category limit s) := by
  by_cases hmem : s.memories uid = []
  · have hres : search_memory app uid query category limit s = [] := by
      unfold search_memory
      rw [if_pos hmem]
    have hsc : scoredOf (queryWordsOf query) category (s.memories uid) = [] := by
      rw [hmem]
      rfl
    refine ⟨?_, ?_, ?_, ?_, ?_, fun hne => absurd hmem hne, ?_⟩
    · rw [hres]; simp
    · rw [hres]; intro h hh; simp at hh
    · intro m h0 k hk; rw [hsc] at hk; simp at hk
    · rw [hres]; exact List.Pairwise.nil
    · intro k; rw [hsc]; rfl
    · intro hlen p hp; rw [hsc] at hp; simp at hp
  · have hres : search_memory app uid query category limit s =
        ((sortDesc (scoredOf (queryWordsOf query) category (s.memories uid))).take
          limit).map toHit := by
      unfold search_memory
      rw [if_neg hmem]
    refine ⟨?_, ?_, ?_, ?_, fun k => filter_sortDesc k _, fun _ => hres, ?_⟩
    · rw [hres, List.length_map]
      exact List.length_take_le _ _
    · rw [hres]
      intro h hh
      rw [List.mem_map] at hh
      obtain ⟨p, hp, rfl⟩ := hh
      have hp1 : p ∈ sortDesc (scoredOf (queryWordsOf query) category (s.memories uid)) :=
        List.take_subset _ _ hp
      have hp2 : p ∈ scoredOf (queryWordsOf query) category (s.memories uid) :=
        (sortDesc_perm _).mem_iff.mp hp1
      obtain ⟨k, m⟩ := p
      obtain ⟨hm, hfil, hpos, hk⟩ := mem_scoredOf.mp hp2
      exact ⟨m, hm, hfil, by omega, by rw [hk]⟩
    · intro m h0 k hk
      have := (mem_scoredOf.mp hk).2.2.1
      omega
    · rw [hres]
      apply List.pairwise_map.mpr
      exact ((sortDesc_sorted _).sublist (List.take_sublist _ _))
    · intro hlen p hp
      rw [hres]
      have hTake : (sortDesc (scoredOf (queryWordsOf query) category (s.memories uid))).take
          limit = sortDesc (scoredOf (queryWordsOf query) category (s.memories uid)) := by
        apply List.take_of_length_le
        rw [(sortDesc_perm _).length_eq]
        exact hlen
      rw [hTake]
      exact List.mem_map_of_mem toHit ((sortDesc_perm _).mem_iff.mpr hp)

/-- Witness for the amended C7 at the six-entry store. -/
theorem C7_witness :
    (search_memory "climateguard" "u1" "alpha beta" none 5 st7).length ≤ 5 ∧
    search_memory "climateguard" "u1" "alpha beta" none 5 st7 =
      ((sortDesc (scoredOf (queryWordsOf "alpha beta") none (st7.memories "u1"))).take
        5).map toHit := by
  constructor
  · exact (C7_search_ranking st7 "climateguard" "u1" "alpha beta" none 5).1
  · exact (C7_search_ranking st7 "climateguard" "u1" "alpha beta" none 5).2.2.2.2.2.1
      (by decide)

end CG
